import Mathlib

/-!
Verification of the GPU miner coordination protocol (pyzcm/miner/gpu.py).

The file shallowly embeds the two sides of the protocol:

* `_GpuMinerProcess` — the backend worker that runs in a separate process:
  its per-process state (`GpuMinerProcState`), the solve-attempt counter
  operations `count_solutions` / `submit_solution`, and one iteration of the
  `run` loop (`workerStep`), which polls the job channel non-blocking and
  either adopts a new mining context, idles, or re-solves the old job.
* `run_miner_process` — the supervisor entry point that isolates faults.
* `GpuMiner` — the asyncio frontend coordinator: its state
  (`GpuMinerState`), the job-enqueue guard `enqueue_last_mining_job`, the
  overridden `set_nonce1` / `register_new_job`, and the result-draining
  loop (`gpuMinerRunLoop`).

Channels (multiprocessing manager queues) are embedded as FIFO lists:
`put` appends at the tail, non-blocking `get` takes the head.
-/

namespace Pyzcm

/-- A mining job as supplied by the upstream protocol client; opaque except
for its unique identifier. -/
structure Job where
  job_id : Nat
deriving DecidableEq, Repr

/-- A byte string (nonce material, solution payloads). -/
abbrev Bytes := List Nat

/-- The tuple `(job, nonce2, len_and_solution, solution_count)` that
`_GpuMinerProcess.submit_solution` puts on the result queue. -/
structure SolutionMsg where
  job : Job
  nonce2 : Bytes
  len_and_solution : Bytes
  counted : Nat
deriving DecidableEq, Repr

/-- The triple `(last_received_job, nonce1, solver_nonce)` that the frontend
puts on the work queue.  Components are `Option`s: Python values may be
`None`, and the worker's own fields start out unset. -/
structure MiningCtx where
  job : Option Job
  nonce1 : Option Bytes
  solver_nonce : Option Bytes
deriving DecidableEq, Repr

/-- State of a `_GpuMinerProcess`: the solve-attempt counter
(`solution_count`, initialised to 0), the result queue (unset until `run`
installs it), and the mining-context fields assigned by the `run` loop
(`job` is the loop-local variable initialised to `None`; `nonce1` and
`solver_nonce` are instance fields overwritten by each received tuple). -/
structure GpuMinerProcState where
  solution_count : Nat
  result_queue : Option (List SolutionMsg)
  job : Option Job
  nonce1 : Option Bytes
  solver_nonce : Option Bytes
deriving DecidableEq, Repr

/-- `_GpuMinerProcess.count_solutions`: `self.solution_count += count`. -/
def count_solutions (st : GpuMinerProcState) (count : Nat) : GpuMinerProcState :=
  { st with solution_count := st.solution_count + count }

/-- `_GpuMinerProcess.submit_solution`: asserts the result queue is
installed (`none` models the assertion failing), puts
`(job, nonce2, len_and_solution, solution_count)` on it, then resets the
counter to 0. -/
def submit_solution (st : GpuMinerProcState) (job : Job)
    (nonce2 len_and_solution : Bytes) : Option GpuMinerProcState :=
  match st.result_queue with
  | none => none
  | some q =>
      some { st with
        result_queue := some (q ++ [⟨job, nonce2, len_and_solution, st.solution_count⟩]),
        solution_count := 0 }

/-- Observable actions of one iteration of the worker loop. -/
inductive WorkerAction where
  | received (c : MiningCtx)
  | sleepRetry (t : Nat)
  | solve (j : Option Job)
deriving DecidableEq, Repr

/-- One iteration of the `while True` body of `_GpuMinerProcess.run`:
a non-blocking `work_queue.get(False)` (head of the FIFO list) that on
success overwrites `(job, self.nonce1, self.solver_nonce)` and falls
through to `do_pow`; on `queue.Empty`, if `job == None or self.nonce1 ==
None` the loop sleeps 2 seconds and `continue`s, otherwise it runs
`do_pow` on the old job.  Returns the new state, the remaining queue and
the iteration's actions. -/
def workerStep (st : GpuMinerProcState) (work_queue : List MiningCtx) :
    GpuMinerProcState × List MiningCtx × List WorkerAction :=
  match work_queue with
  | c :: rest =>
      ({ st with job := c.job, nonce1 := c.nonce1, solver_nonce := c.solver_nonce },
       rest, [.received c, .solve c.job])
  | [] =>
      if st.job = none ∨ st.nonce1 = none then
        (st, [], [.sleepRetry 2])
      else
        (st, [], [.solve st.job])

/-- `k` successive iterations of the worker loop during which the job
channel stays empty: the cumulative action trace and final state. -/
def workerStepsEmpty : GpuMinerProcState → Nat → GpuMinerProcState × List WorkerAction
  | st, 0 => (st, [])
  | st, k + 1 =>
      let r := workerStep st []
      let r2 := workerStepsEmpty r.1 k
      (r2.1, r.2.2 ++ r2.2)

/-- An exception value: the message and the traceback text
(`traceback.format_exc()`). -/
structure Exc where
  msg : String
  trace : String
deriving DecidableEq, Repr

/-- Python logging severities relevant here.  `logging.error` is the
ERROR level; FATAL is an alias of CRITICAL, a strictly higher level. -/
inductive LogLevel where
  | debug
  | info
  | error
  | critical
deriving DecidableEq, Repr

/-- Observable events of the supervisor `run_miner_process`. -/
inductive SupEvent where
  | log (lvl : LogLevel) (msg : String)
  | callRun
deriving DecidableEq, Repr

/-- Recognises the event of calling the worker loop's `run`. -/
def isCallRun : SupEvent → Bool
  | .callRun => true
  | _ => false

/-- `run_miner_process`: constructs `_GpuMinerProcess`, logs a debug line,
calls `run` once; a single catch-all logs `'FATAL:{e}{traceback}'` via
`logging.error` and returns.  The two `Except` arguments stand for the
outcome of construction and of the (otherwise non-terminating) `run` call.
Result: the emitted events and the exception propagated to the caller
(always `none`: the catch-all swallows everything). -/
def run_miner_process (constructOutcome runOutcome : Except Exc Unit) :
    List SupEvent × Option Exc :=
  match constructOutcome with
  | .error e => ([.log .error ("FATAL:" ++ e.msg ++ e.trace)], none)
  | .ok _ =>
      ([.log .debug "Instantiated MinerProcess", .callRun] ++
        (match runOutcome with
         | .ok _ => []
         | .error e => [.log .error ("FATAL:" ++ e.msg ++ e.trace)]), none)

/-- State of the frontend `GpuMiner`: the generic miner fields managed by
the `AsyncMiner` base (current job, current nonce1), the solver nonce fixed
at construction, the recorded share callback (opaque identifier) and the
work queue (FIFO list). -/
structure GpuMinerState where
  last_received_job : Option Job
  nonce1 : Option Bytes
  solver_nonce : Option Bytes
  on_share : Option Nat
  work_queue : List MiningCtx
deriving DecidableEq, Repr

/-- Modelled from the spec: construction state of `GpuMiner`.  The
`AsyncMiner` base initialiser (pyzcm/miner/__init__.py, not under src/)
manages the generic state — current job and current nonce1, both initially
absent — while `GpuMiner.__init__` creates the fresh (empty) channel pair
and stores the solver nonce. -/
def initGpuMiner (solver_nonce : Bytes) : GpuMinerState :=
  { last_received_job := none
    nonce1 := none
    solver_nonce := some solver_nonce
    on_share := none
    work_queue := [] }

/-- `GpuMiner._enqueue_last_mining_job`: puts
`(last_received_job, nonce1, solver_nonce)` on the work queue only when
`last_received_job is not None and nonce1 is not None`; otherwise nothing
is sent. -/
def enqueue_last_mining_job (st : GpuMinerState) : GpuMinerState :=
  if st.last_received_job ≠ none ∧ st.nonce1 ≠ none then
    { st with
      work_queue := st.work_queue ++ [⟨st.last_received_job, st.nonce1, st.solver_nonce⟩] }
  else st

/-- `GpuMiner.set_nonce1`, modelled from the spec for the base call: the
`AsyncMiner` base `set_nonce1` (not under src/) stores nonce1; the override
then calls `_enqueue_last_mining_job`. -/
def set_nonce1 (st : GpuMinerState) (n : Bytes) : GpuMinerState :=
  enqueue_last_mining_job { st with nonce1 := some n }

/-- `GpuMiner.register_new_job`, modelled from the spec for the base call:
the `AsyncMiner` base `register_new_job` (not under src/) records the job
and the share callback; the override then calls
`_enqueue_last_mining_job`. -/
def register_new_job (st : GpuMinerState) (j : Job) (cb : Nat) : GpuMinerState :=
  enqueue_last_mining_job { st with last_received_job := some j, on_share := some cb }

/-- Observable events of the frontend result-draining loop: applying the
received counter to the accounting callback, and forwarding a solution for
submission. -/
inductive FrontEvent where
  | countCall (n : Nat)
  | submitCall (j : Job) (nonce2 : Bytes) (len_and_solution : Bytes)
deriving DecidableEq, Repr

/-- The `while not self._stop` loop of `GpuMiner.run`, modelled from the
spec for the base calls: each iteration checks the stop flag, blocks on
`result_queue.get` (the next scheduled message), then applies the counter
via the base `count_solutions` (the shared accounting callback, not under
src/) and forwards `(job, nonce2, len_and_solution)` via the base
`submit_solution` (share submission, not under src/).  The schedule pairs
the stop-flag value observed at each check with the message the blocking
receive would deliver. -/
def gpuMinerRunLoop : List (Bool × SolutionMsg) → List FrontEvent
  | [] => []
  | (stopFlag, m) :: rest =>
      if stopFlag then []
      else
        .countCall m.counted ::
          .submitCall m.job m.nonce2 m.len_and_solution :: gpuMinerRunLoop rest

/-! ## Helper lemmas -/

/-- Folding `count_solutions` over a list of counts adds their sum to the
solve-attempt counter. -/
theorem foldl_count_solutions_count (cs : List Nat) (st : GpuMinerProcState) :
    (cs.foldl count_solutions st).solution_count = st.solution_count + cs.sum := by
  induction cs generalizing st with
  | nil => simp
  | cons c cs ih =>
      simp only [List.foldl_cons, List.sum_cons, ih, count_solutions]
      omega

/-- Folding `count_solutions` leaves the result queue untouched. -/
theorem foldl_count_solutions_queue (cs : List Nat) (st : GpuMinerProcState) :
    (cs.foldl count_solutions st).result_queue = st.result_queue := by
  induction cs generalizing st with
  | nil => rfl
  | cons c cs ih => simp only [List.foldl_cons, ih, count_solutions]

/-! ## Claim theorems -/

/-- Claim C1: after a sequence of `count_solutions` calls accumulating `N`
solve attempts (from a counter that was 0 after the previous submission),
`submit_solution` pushes a Solution Message carrying exactly `N`, and
immediately afterwards the worker's `solution_count` is 0, so no attempt is
counted in two consecutive Solution Messages. -/
theorem solution_counter_batch (cs : List Nat) (q : List SolutionMsg)
    (st : GpuMinerProcState) (h0 : st.solution_count = 0)
    (hq : st.result_queue = some q) (j : Job) (n2 sol : Bytes) :
    ∃ st2, submit_solution (cs.foldl count_solutions st) j n2 sol = some st2 ∧
      st2.result_queue = some (q ++ [⟨j, n2, sol, cs.sum⟩]) ∧
      st2.solution_count = 0 := by
  have hc := foldl_count_solutions_count cs st
  have hqq := foldl_count_solutions_queue cs st
  rw [h0, Nat.zero_add] at hc
  rw [hq] at hqq
  refine ⟨{ cs.foldl count_solutions st with
      result_queue := some (q ++ [⟨j, n2, sol, cs.sum⟩]),
      solution_count := 0 }, ?_, rfl, rfl⟩
  simp only [submit_solution, hqq, hc]

/-- Witness for C1: three then four attempts from a fresh counter yield a
message counted 7 and a reset counter. -/
theorem solution_counter_batch_witness :
    ∃ st2, submit_solution ([3, 4].foldl count_solutions
        ⟨0, some [], none, none, none⟩) ⟨1⟩ [] [] = some st2 ∧
      st2.result_queue = some ([] ++ [⟨⟨1⟩, [], [], [3, 4].sum⟩]) ∧
      st2.solution_count = 0 :=
  solution_counter_batch [3, 4] [] ⟨0, some [], none, none, none⟩ rfl rfl ⟨1⟩ [] []

/-- Counterexample to C2: the job channel is a FIFO queue, so when two
contexts are enqueued before the worker polls, the first poll receives the
EARLIER context — which the claim says is never received by the worker. -/
theorem worker_receives_earlier_context :
    ((workerStep ⟨0, none, none, none, none⟩
        [⟨some ⟨1⟩, some [1], some [9]⟩, ⟨some ⟨2⟩, some [1], some [9]⟩]).2.2).head? =
      some (.received ⟨some ⟨1⟩, some [1], some [9]⟩) ∧
    (⟨some ⟨1⟩, some [1], some [9]⟩ : MiningCtx) ≠ ⟨some ⟨2⟩, some [1], some [9]⟩ :=
  ⟨rfl, by decide⟩

/-- Claim C2 (amended): the job channel is FIFO — after two enqueues with
no intervening poll, the worker first receives the earlier context (and
solves it once), then receives the later context on its next poll; every
enqueued context is received exactly once, in send order; no update is
skipped. -/
theorem worker_fifo_two_enqueues (st : GpuMinerProcState) (c1 c2 : MiningCtx) :
    (workerStep st [c1, c2]).2.2 = [.received c1, .solve c1.job] ∧
    (workerStep st [c1, c2]).2.1 = [c2] ∧
    (workerStep (workerStep st [c1, c2]).1 [c2]).2.2 =
      [.received c2, .solve c2.job] :=
  ⟨rfl, rfl, rfl⟩

/-- Claim C3: `_enqueue_last_mining_job` sends nothing (is a no-op) when
`last_received_job` or `nonce1` is unset; when both are set it puts exactly
one message, the triple `(last_received_job, nonce1, solver_nonce)`, onto
the job channel. -/
theorem enqueue_last_mining_job_spec (st : GpuMinerState) :
    ((st.last_received_job = none ∨ st.nonce1 = none) →
      enqueue_last_mining_job st = st) ∧
    (∀ j n, st.last_received_job = some j → st.nonce1 = some n →
      (enqueue_last_mining_job st).work_queue =
        st.work_queue ++ [⟨some j, some n, st.solver_nonce⟩]) := by
  constructor
  · intro h
    have hcond : ¬(st.last_received_job ≠ none ∧ st.nonce1 ≠ none) := by
      rcases h with h | h <;> simp [h]
    simp [enqueue_last_mining_job, hcond]
  · intro j n hj hn
    simp [enqueue_last_mining_job, hj, hn]

/-- Claim C4: when the non-blocking poll finds the job channel empty and
job or nonce1 is absent, the worker does not invoke `do_pow`: it sleeps 2
time units, leaves its state unchanged, and retries. -/
theorem worker_idles_without_full_context (st : GpuMinerProcState)
    (h : st.job = none ∨ st.nonce1 = none) :
    workerStep st [] = (st, [], [.sleepRetry 2]) := by
  simp only [workerStep, if_pos h]

/-- Witness for C4: a fresh worker with an empty channel idles. -/
theorem worker_idles_without_full_context_witness :
    workerStep ⟨0, none, none, none, some [9]⟩ [] =
      (⟨0, none, none, none, some [9]⟩, [], [.sleepRetry 2]) :=
  worker_idles_without_full_context ⟨0, none, none, none, some [9]⟩ (Or.inl rfl)

/-- Claim C5: once job and nonce1 are both set, every further iteration
that finds the channel empty invokes the solve operation on the existing
context and leaves the state unchanged — the worker never re-enters the
idling (NoContext) state. -/
theorem worker_full_context_resolves (st : GpuMinerProcState) (j : Job)
    (n : Bytes) (hj : st.job = some j) (hn : st.nonce1 = some n) (k : Nat) :
    workerStepsEmpty st k = (st, List.replicate k (.solve (some j))) := by
  induction k with
  | zero => rfl
  | succ k ih =>
      have hcond : ¬(st.job = none ∨ st.nonce1 = none) := by simp [hj, hn]
      have hstep : workerStep st [] = (st, [], [.solve (some j)]) := by
        simp only [workerStep]
        rw [if_neg hcond, hj]
      simp [workerStepsEmpty, hstep, ih, List.replicate_succ]

/-- Witness for C5: a worker holding a full context solves it on three
successive empty polls and keeps the context. -/
theorem worker_full_context_resolves_witness :
    workerStepsEmpty ⟨0, none, some ⟨1⟩, some [1], some [9]⟩ 3 =
      (⟨0, none, some ⟨1⟩, some [1], some [9]⟩,
        List.replicate 3 (.solve (some ⟨1⟩))) :=
  worker_full_context_resolves ⟨0, none, some ⟨1⟩, some [1], some [9]⟩
    ⟨1⟩ [1] rfl rfl 3

/-- Claim C6: from a fresh coordinator, `register_new_job` then
`set_nonce1` enqueues exactly one complete context
`(J1, N1, solver_nonce)`, and so does the opposite order: the number and
content of enqueued contexts is order-independent. -/
theorem enqueue_order_independent (sn n1 : Bytes) (j : Job) (cb : Nat) :
    (set_nonce1 (register_new_job (initGpuMiner sn) j cb) n1).work_queue =
      [⟨some j, some n1, some sn⟩] ∧
    (register_new_job (set_nonce1 (initGpuMiner sn) n1) j cb).work_queue =
      [⟨some j, some n1, some sn⟩] := by
  constructor <;>
    simp [set_nonce1, register_new_job, enqueue_last_mining_job, initGpuMiner]

/-- Counterexample to C7: with job and nonce1 set but `solver_nonce`
absent, the worker's empty poll invokes the solve operation rather than
idling — the guard never consults `solver_nonce`. -/
theorem worker_solves_without_solver_nonce :
    (GpuMinerProcState.solver_nonce ⟨0, none, some ⟨1⟩, some [1], none⟩ = none) ∧
    (workerStep ⟨0, none, some ⟨1⟩, some [1], none⟩ []).2.2 =
      [.solve (some ⟨1⟩)] :=
  ⟨rfl, rfl⟩

/-- Claim C7 (amended): on an empty poll the worker idles exactly when job
or nonce1 is absent; the presence of `solver_nonce` is not consulted, so
solving requires only job and nonce1 to be present. -/
theorem worker_idle_condition (st : GpuMinerProcState) :
    (workerStep st []).2.2 = [.sleepRetry 2] ↔
      (st.job = none ∨ st.nonce1 = none) := by
  by_cases h : st.job = none ∨ st.nonce1 = none
  · simp only [workerStep, if_pos h]
    simp [h]
  · simp only [workerStep, if_neg h]
    simp [h]

/-- Counterexample to C8: for a concrete exception the supervisor emits its
single log line at ERROR severity, not at fatal (CRITICAL) severity — the
source calls `logging.error`, only prefixing the message text with
`FATAL:`. -/
theorem supervisor_logs_error_severity :
    (run_miner_process (Except.error ⟨"boom", "tb"⟩) (Except.ok ())).1 =
      [.log .error ("FATAL:" ++ "boom" ++ "tb")] ∧
    LogLevel.error ≠ LogLevel.critical :=
  ⟨rfl, by decide⟩

/-- Claim C8 (amended): every exception raised during worker-process
execution is caught by `run_miner_process`, logged at ERROR severity with a
message prefixed `FATAL:` carrying the exception and its full stack trace,
and never re-raised to the caller; the Worker Loop's `run` is called at
most once per process lifetime (exactly once when construction succeeds)
and no restart is attempted. -/
theorem run_miner_process_isolates_faults (c r : Except Exc Unit) :
    (run_miner_process c r).2 = none ∧
    (run_miner_process c r).1.countP isCallRun ≤ 1 ∧
    (∀ e, (run_miner_process (Except.error e) r).1 =
      [.log .error ("FATAL:" ++ e.msg ++ e.trace)]) ∧
    (∀ e, (run_miner_process (Except.ok ()) (Except.error e)).1 =
      [.log .debug "Instantiated MinerProcess", .callRun,
        .log .error ("FATAL:" ++ e.msg ++ e.trace)]) := by
  refine ⟨?_, ?_, fun e => rfl, fun e => rfl⟩
  · cases c <;> rfl
  · cases c with
    | error e => simp [run_miner_process, isCallRun]
    | ok u => cases r <;> simp [run_miner_process, isCallRun]

/-- Claim C9: each iteration of the coordinator's run loop executed while
the stop flag is unset applies the received counter to the accounting
callback exactly once and then forwards the solution exactly once; the
loop processes every scheduled message when the stop flag never gets set,
and halts before the next blocking receive once the stop flag is observed
set. -/
theorem gpu_run_loop_spec (sched : List (Bool × SolutionMsg)) :
    ((∀ p ∈ sched, p.1 = false) →
      gpuMinerRunLoop sched = sched.flatMap
        (fun p => [.countCall p.2.counted,
          .submitCall p.2.job p.2.nonce2 p.2.len_and_solution])) ∧
    (∀ m rest, sched = (true, m) :: rest → gpuMinerRunLoop sched = []) ∧
    (∀ m rest, sched = (false, m) :: rest →
      gpuMinerRunLoop sched =
        .countCall m.counted ::
          .submitCall m.job m.nonce2 m.len_and_solution ::
            gpuMinerRunLoop rest) := by
  refine ⟨?_, ?_, ?_⟩
  · intro hall
    induction sched with
    | nil => rfl
    | cons p rest ih =>
        obtain ⟨b, m⟩ := p
        have hb : b = false := hall (b, m) (List.mem_cons_self _ _)
        subst hb
        simp [gpuMinerRunLoop, ih (fun q hq => hall q (List.mem_cons_of_mem _ hq))]
  · rintro m rest rfl
    rfl
  · rintro m rest rfl
    rfl

/-- Claim C10: `submit_solution` requires the result channel to be
installed: with `result_queue` still unset the assertion fails (modelled as
`none`), and once `run` has assigned the result channel the assertion never
fires and the enqueue always succeeds, appending the message with the
current counter. -/
theorem submit_solution_requires_result_queue (st : GpuMinerProcState)
    (j : Job) (n2 sol : Bytes) :
    (st.result_queue = none → submit_solution st j n2 sol = none) ∧
    (∀ q, st.result_queue = some q →
      submit_solution st j n2 sol =
        some { st with
          result_queue := some (q ++ [⟨j, n2, sol, st.solution_count⟩]),
          solution_count := 0 }) := by
  constructor
  · intro h
    simp [submit_solution, h]
  · intro q h
    simp [submit_solution, h]

end Pyzcm
